import Mathlib

/-!
Verification of the k-fold cross-validation harness (`KFoldCV`) from
`src/mlpack/core/cv/k_fold_cv_impl.hpp`, shallowly embedded in Lean 4.

Column-major Armadillo buffers are modelled as lists of columns (`List α`);
the element type of a column is abstract, so element type and row count are
preserved by construction whenever a staged column is literally a column of
the original buffer.  Machine `size_t` arithmetic is modelled with `Nat`
(truncated subtraction agrees with the C++ code on the domains considered,
since every subtraction in the source is shown non-underflowing there).
Metric scores (`double` in the source) are idealised as rationals `ℚ`,
which keeps `arma::mean` (sum divided by element count) exact.  Fallible
collaborator calls (`Train`, `Metric::Evaluate`, which may throw) are
modelled with `Except`.
-/

namespace MlpackCV

/-- `binSize = source.n_cols / k` (integer division), from `InitKFoldCVMat`. -/
def binSize (n k : Nat) : Nat := n / k

/-- `trainingSubsetSize = binSize * (k - 1)`, from `InitKFoldCVMat`. -/
def trainingSubsetSize (n k : Nat) : Nat := binSize n k * (k - 1)

/-- `lastBinSize = source.n_cols - ((k - 1) * binSize)`, from `InitKFoldCVMat`. -/
def lastBinSize (n k : Nat) : Nat := n - (k - 1) * binSize n k

/-- `InitKFoldCVMat`: `destination = (k == 2) ? source :
arma::join_rows(source, source.cols(0, trainingSubsetSize - binSize - 1))`.
`cols(0, j)` is inclusive of column `j`, hence `take (trainingSubsetSize - binSize)`. -/
def initKFoldCVMat (k : Nat) (source : List α) : List α :=
  if k = 2 then source
  else source ++
    source.take (trainingSubsetSize source.length k - binSize source.length k)

/-- `ValidationSubsetFirstCol`: `(i == 0) ? trainingSubsetSize : binSize * (i - 1)`. -/
def validationSubsetFirstCol (n k i : Nat) : Nat :=
  if i = 0 then trainingSubsetSize n k else binSize n k * (i - 1)

/-- `GetValidationSubset`: the window of `subsetSize = (i == 0) ? lastBinSize :
binSize` columns of the staged buffer `m` starting at `ValidationSubsetFirstCol(i)`. -/
def getValidationSubset (n k : Nat) (m : List α) (i : Nat) : List α :=
  (m.drop (validationSubsetFirstCol n k i)).take
    (if i = 0 then lastBinSize n k else binSize n k)

/-- `GetTrainingSubset`: the window of `subsetSize = (i == k - 1) ?
lastBinSize + (k - 2) * binSize : trainingSubsetSize` columns of the staged
buffer `m` starting at column `binSize * i`. -/
def getTrainingSubset (n k : Nat) (m : List α) (i : Nat) : List α :=
  (m.drop (binSize n k * i)).take
    (if i = k - 1 then lastBinSize n k + (k - 2) * binSize n k
     else trainingSubsetSize n k)

/-- The harness state: fold count `k`, the original column count `n` (from
which the fold geometry members are recomputed), the staged buffers, and the
retained-model slot `modelPtr` (`std::unique_ptr`, nullable). -/
structure KFoldCV (α β M : Type) where
  k : Nat
  n : Nat
  xs : List α
  ys : List β
  modelPtr : Option M
deriving DecidableEq

/-- The delegate constructor `KFoldCV(Base&&, k, xs, ys)`: throws
`std::invalid_argument` when `k < 2`, otherwise stages both buffers with
`InitKFoldCVMat` and leaves `modelPtr` null. -/
def kFoldCVConstruct (M : Type) (k : Nat) (xs : List α) (ys : List β) :
    Except String (KFoldCV α β M) :=
  if k < 2 then Except.error "KFoldCV: k should not be less than 2"
  else Except.ok
    { k := k
      n := xs.length
      xs := initKFoldCVMat k xs
      ys := initKFoldCVMat k ys
      modelPtr := none }

/-- `Model()`: throws `std::logic_error` when `modelPtr == nullptr`, otherwise
returns the retained model. -/
def Model (h : KFoldCV α β M) : Except String M :=
  match h.modelPtr with
  | none => Except.error
      "KFoldCV::Model(): attempted to access an uninitialized model"
  | some m => Except.ok m

/-- The fold loop of `TrainAndEvaluate`: for `i` from `0` to `k - 1`, train a
model on fold `i`'s training windows, score it on fold `i`'s validation
windows, record the score, and when `i == k - 1` overwrite the retained-model
slot with the freshly trained model.  A throw from `Train` or
`Metric::Evaluate` propagates immediately, leaving the slot as it is. -/
def cvLoop (k : Nat) (train : Nat → Except ε M) (ev : Nat → M → Except ε ℚ) :
    List Nat → List ℚ → Option M → Except ε (List ℚ) × Option M
  | [], acc, ptr => (Except.ok acc, ptr)
  | i :: rest, acc, ptr =>
    match train i with
    | Except.error e => (Except.error e, ptr)
    | Except.ok model =>
      match ev i model with
      | Except.error e => (Except.error e, ptr)
      | Except.ok s =>
        cvLoop k train ev rest (acc ++ [s])
          (if i = k - 1 then some model else ptr)

/-- `TrainAndEvaluate` (unweighted overload): runs the fold loop from fold 0
on the staged buffers and returns `arma::mean(evaluations)`, i.e. the sum of
the `k` recorded scores divided by `k`, together with the harness in its
post-call state. -/
def trainAndEvaluate (h : KFoldCV α β M)
    (train : List α → List β → Except ε M)
    (metricEvaluate : M → List α → List β → Except ε ℚ) :
    Except ε ℚ × KFoldCV α β M :=
  let r := cvLoop h.k
    (fun i => train (getTrainingSubset h.n h.k h.xs i)
                    (getTrainingSubset h.n h.k h.ys i))
    (fun i model => metricEvaluate model (getValidationSubset h.n h.k h.xs i)
                    (getValidationSubset h.n h.k h.ys i))
    (List.range h.k) [] h.modelPtr
  (r.1.map (fun scores => scores.sum / (h.k : ℚ)), { h with modelPtr := r.2 })

/-- `Evaluate(args...)` simply delegates to `TrainAndEvaluate`. -/
def Evaluate (h : KFoldCV α β M)
    (train : List α → List β → Except ε M)
    (metricEvaluate : M → List α → List β → Except ε ℚ) :
    Except ε ℚ × KFoldCV α β M :=
  trainAndEvaluate h train metricEvaluate

/-- The score computed at fold `i` by an infallible model/metric pair: the
metric applied to the model trained on fold `i`'s training windows and to
fold `i`'s validation windows. -/
def foldScore (h : KFoldCV α β M) (train : List α → List β → M)
    (metricEvaluate : M → List α → List β → ℚ) (i : Nat) : ℚ :=
  metricEvaluate
    (train (getTrainingSubset h.n h.k h.xs i) (getTrainingSubset h.n h.k h.ys i))
    (getValidationSubset h.n h.k h.xs i) (getValidationSubset h.n h.k h.ys i)

/-- The original column a staged-buffer column index maps back to: staged
column `j` holds original column `j` when `j < n` and original column `j - n`
when `j` lies in the duplicated tail. -/
def stagedColToOrig (n j : Nat) : Nat := if j < n then j else j - n

/-- A concrete harness on ten columns with three folds, as produced by the
constructor on the buffer `[0, ..., 9]`. -/
def sampleCV : KFoldCV Nat Nat (List Nat) :=
  { k := 3
    n := 10
    xs := initKFoldCVMat 3 (List.range 10)
    ys := initKFoldCVMat 3 (List.range 10)
    modelPtr := none }

/-- A stub model operation: the model retains its training features. -/
def trainLen : List Nat → List Nat → List Nat := fun a _ => a

/-- A stub metric: the score is the validation-set size. -/
def mevLen : List Nat → List Nat → List Nat → ℚ :=
  fun _ v _ => (v.length : ℚ)

/-- A concrete harness on two columns with two folds, as produced by the
constructor on the buffer `[0, 1]`. -/
def hSample : KFoldCV Nat Nat (List Nat) :=
  { k := 2, n := 2, xs := [0, 1], ys := [0, 1], modelPtr := none }

/-- `trainLen` lifted into the fallible interface. -/
def trainS : List Nat → List Nat → Except Unit (List Nat) :=
  fun a _ => Except.ok a

/-- `mevLen` lifted into the fallible interface. -/
def mevS : List Nat → List Nat → List Nat → Except Unit ℚ :=
  fun _ v _ => Except.ok (v.length : ℚ)

/-- A metric whose evaluation always raises an error. -/
def mevFail : List Nat → List Nat → List Nat → Except Unit ℚ :=
  fun _ _ _ => Except.error ()

/-! ### Fold-geometry helper lemmas -/

theorem binSize_mul_le (n k : Nat) : binSize n k * k ≤ n := by
  simpa [binSize] using Nat.div_mul_le_self n k

theorem trainingSubsetSize_le (n k : Nat) : trainingSubsetSize n k ≤ n := by
  calc trainingSubsetSize n k = binSize n k * (k - 1) := rfl
    _ ≤ binSize n k * k := Nat.mul_le_mul_left _ (Nat.sub_le _ _)
    _ ≤ n := binSize_mul_le n k

theorem binSize_pos (n k : Nat) (hk : 1 ≤ k) (hn : k ≤ n) : 1 ≤ binSize n k := by
  exact (Nat.one_le_div_iff (by omega)).mpr hn

theorem trainingSubsetSize_add_lastBinSize (n k : Nat) :
    trainingSubsetSize n k + lastBinSize n k = n := by
  have h := trainingSubsetSize_le n k
  simp only [trainingSubsetSize, lastBinSize, Nat.mul_comm (k - 1)] at *
  omega

theorem binSize_mul_eq (n k : Nat) : binSize n k * k = n - n % k := by
  show n / k * k = n - n % k
  have h := Nat.div_add_mod n k
  have h2 : n / k * k = k * (n / k) := Nat.mul_comm _ _
  omega

theorem lastBinSize_pos (n k : Nat) (hk : 2 ≤ k) (hn : k ≤ n) :
    1 ≤ lastBinSize n k := by
  have hb := binSize_pos n k (by omega) hn
  have hmul := binSize_mul_le n k
  simp only [lastBinSize]
  have h1 : (k - 1) * binSize n k + binSize n k = k * binSize n k := by
    have hk1 : (k - 1) + 1 = k := by omega
    calc (k - 1) * binSize n k + binSize n k
        = ((k - 1) + 1) * binSize n k := by ring
      _ = k * binSize n k := by rw [hk1]
  have h2 : k * binSize n k = binSize n k * k := Nat.mul_comm _ _
  omega

theorem staged_length (k : Nat) (src : List α) (hk : 2 ≤ k)
    (hn : k ≤ src.length) :
    (initKFoldCVMat k src).length =
      src.length + (trainingSubsetSize src.length k - binSize src.length k) := by
  by_cases h2 : k = 2
  · subst h2
    simp [initKFoldCVMat, trainingSubsetSize, binSize]
  · have hle : trainingSubsetSize src.length k - binSize src.length k ≤
        src.length := le_trans (Nat.sub_le _ _) (trainingSubsetSize_le _ _)
    simp [initKFoldCVMat, h2, Nat.min_eq_left hle]

theorem validation_window_fits (n k i : Nat) (hk : 2 ≤ k) (hi : i < k) :
    validationSubsetFirstCol n k i +
      (if i = 0 then lastBinSize n k else binSize n k) ≤ n := by
  have e3 := trainingSubsetSize_add_lastBinSize n k
  by_cases h0 : i = 0
  · rw [if_pos h0]
    simp only [validationSubsetFirstCol, if_pos h0]
    omega
  · rw [if_neg h0]
    simp only [validationSubsetFirstCol, if_neg h0]
    have hi1 : (i - 1) + 1 = i := by omega
    have e1 : binSize n k * (i - 1) + binSize n k = binSize n k * i := by
      rw [← Nat.mul_succ, Nat.succ_eq_add_one, hi1]
    have e2 : binSize n k * i ≤ trainingSubsetSize n k := by
      simpa [trainingSubsetSize] using
        Nat.mul_le_mul_left (binSize n k) (by omega : i ≤ k - 1)
    have e4 := trainingSubsetSize_le n k
    omega

theorem training_window_fits (n k i : Nat) (hk : 2 ≤ k) (hi : i < k) :
    binSize n k * i +
      (if i = k - 1 then lastBinSize n k + (k - 2) * binSize n k
       else trainingSubsetSize n k) ≤
      n + (trainingSubsetSize n k - binSize n k) := by
  have e3 := trainingSubsetSize_add_lastBinSize n k
  have e4 := trainingSubsetSize_le n k
  have e1 : binSize n k * (k - 2) + binSize n k = binSize n k * (k - 1) := by
    have hk1 : (k - 2) + 1 = k - 1 := by omega
    rw [← Nat.mul_succ, Nat.succ_eq_add_one, hk1]
  have e2 : trainingSubsetSize n k = binSize n k * (k - 1) := rfl
  by_cases hlast : i = k - 1
  · rw [if_pos hlast, hlast]
    have e5 : (k - 2) * binSize n k = binSize n k * (k - 2) := Nat.mul_comm _ _
    omega
  · rw [if_neg hlast]
    have hbi : binSize n k * i ≤ binSize n k * (k - 2) :=
      Nat.mul_le_mul_left _ (by omega)
    omega

theorem validation_window_length (n k : Nat) (src : List α)
    (hlen : src.length = n) (hk : 2 ≤ k) (hn : k ≤ n) (i : Nat) (hi : i < k) :
    (getValidationSubset n k (initKFoldCVMat k src) i).length =
      (if i = 0 then lastBinSize n k else binSize n k) := by
  have hfit := validation_window_fits n k i hk hi
  have hsl := staged_length k src hk (by omega)
  rw [hlen] at hsl
  simp only [getValidationSubset, List.length_take, List.length_drop, hsl]
  by_cases h0 : i = 0
  · rw [if_pos h0] at hfit ⊢
    simp only [validationSubsetFirstCol, if_pos h0] at hfit ⊢
    omega
  · rw [if_neg h0] at hfit ⊢
    simp only [validationSubsetFirstCol, if_neg h0] at hfit ⊢
    omega

theorem training_window_length (n k : Nat) (src : List α)
    (hlen : src.length = n) (hk : 2 ≤ k) (hn : k ≤ n) (i : Nat) (hi : i < k) :
    (getTrainingSubset n k (initKFoldCVMat k src) i).length =
      (if i = k - 1 then lastBinSize n k + (k - 2) * binSize n k
       else trainingSubsetSize n k) := by
  have hfit := training_window_fits n k i hk hi
  have hsl := staged_length k src hk (by omega)
  rw [hlen] at hsl
  simp only [getTrainingSubset, List.length_take, List.length_drop, hsl]
  by_cases hlast : i = k - 1
  · rw [if_pos hlast] at hfit ⊢
    rw [hlast] at hfit ⊢
    omega
  · rw [if_neg hlast] at hfit ⊢
    omega

/-! ### Claim theorems -/

/-- C3: when `k == 2` the staged buffer equals the original buffer; when
`k > 2` it is the original buffer with its first
`trainingSubsetSize - binSize` columns appended a second time at the end,
with the staged column count exactly `n + (trainingSubsetSize - binSize)`;
and every staged column is a column of the original buffer, so element type
and row count are preserved. -/
theorem staged_buffer_spec (k : Nat) (src : List α) (hk : 2 ≤ k)
    (hn : k ≤ src.length) :
    (k = 2 → initKFoldCVMat k src = src) ∧
    (2 < k →
      initKFoldCVMat k src =
        src ++ src.take
          (trainingSubsetSize src.length k - binSize src.length k) ∧
      (initKFoldCVMat k src).length =
        src.length +
          (trainingSubsetSize src.length k - binSize src.length k)) ∧
    ∀ c ∈ initKFoldCVMat k src, c ∈ src := by
  refine ⟨?_, ?_, ?_⟩
  · intro h2
    simp [initKFoldCVMat, h2]
  · intro h2
    have hne : k ≠ 2 := by omega
    exact ⟨by simp [initKFoldCVMat, hne], staged_length k src hk hn⟩
  · intro c hc
    by_cases h2 : k = 2
    · simpa [initKFoldCVMat, h2] using hc
    · simp only [initKFoldCVMat, if_neg h2, List.mem_append] at hc
      rcases hc with hc | hc
      · exact hc
      · exact List.mem_of_mem_take hc

/-- C3 witness: the staged-buffer claim instantiated at `k = 3` on the
ten-column buffer `[0, ..., 9]`. -/
theorem staged_buffer_spec_witness :
    (3 = 2 → initKFoldCVMat 3 (List.range 10) = List.range 10) ∧
    (2 < 3 →
      initKFoldCVMat 3 (List.range 10) =
        List.range 10 ++ (List.range 10).take
          (trainingSubsetSize (List.range 10).length 3 -
            binSize (List.range 10).length 3) ∧
      (initKFoldCVMat 3 (List.range 10)).length =
        (List.range 10).length +
          (trainingSubsetSize (List.range 10).length 3 -
            binSize (List.range 10).length 3)) ∧
    ∀ c ∈ initKFoldCVMat 3 (List.range 10), c ∈ List.range 10 :=
  staged_buffer_spec 3 (List.range 10) (by decide) (by simp)

/-- C4: for every fold index `i < k`, the validation window starts at staged
column `trainingSubsetSize` when `i == 0` and at `binSize * (i - 1)`
otherwise, and the extracted validation window has exactly `lastBinSize`
columns when `i == 0` and `binSize` columns otherwise. -/
theorem validation_window_spec (n k : Nat) (src : List α)
    (hlen : src.length = n) (hk : 2 ≤ k) (hn : k ≤ n) (i : Nat) (hi : i < k) :
    validationSubsetFirstCol n k i =
      (if i = 0 then trainingSubsetSize n k else binSize n k * (i - 1)) ∧
    (getValidationSubset n k (initKFoldCVMat k src) i).length =
      (if i = 0 then lastBinSize n k else binSize n k) :=
  ⟨rfl, validation_window_length n k src hlen hk hn i hi⟩

/-- C4 witness: the validation-window claim instantiated at `n = 10`,
`k = 3`, fold `i = 0`. -/
theorem validation_window_spec_witness :
    validationSubsetFirstCol 10 3 0 =
      (if 0 = 0 then trainingSubsetSize 10 3 else binSize 10 3 * (0 - 1)) ∧
    (getValidationSubset 10 3 (initKFoldCVMat 3 (List.range 10)) 0).length =
      (if 0 = 0 then lastBinSize 10 3 else binSize 10 3) :=
  validation_window_spec 10 3 (List.range 10) (by simp) (by decide) (by decide)
    0 (by decide)

/-- C5: for every fold index `i < k`, the training window starts at staged
column `binSize * i`, and the extracted training window has exactly
`trainingSubsetSize` columns for every fold except the last (`i == k - 1`),
which has `lastBinSize + (k - 2) * binSize` columns. -/
theorem training_window_spec (n k : Nat) (src : List α)
    (hlen : src.length = n) (hk : 2 ≤ k) (hn : k ≤ n) (i : Nat) (hi : i < k) :
    getTrainingSubset n k (initKFoldCVMat k src) i =
      ((initKFoldCVMat k src).drop (binSize n k * i)).take
        (if i = k - 1 then lastBinSize n k + (k - 2) * binSize n k
         else trainingSubsetSize n k) ∧
    (getTrainingSubset n k (initKFoldCVMat k src) i).length =
      (if i = k - 1 then lastBinSize n k + (k - 2) * binSize n k
       else trainingSubsetSize n k) :=
  ⟨rfl, training_window_length n k src hlen hk hn i hi⟩

/-- C5 witness: the training-window claim instantiated at `n = 10`, `k = 3`,
last fold `i = 2` (Scenario B: training length `4 + 1 * 3 = 7`). -/
theorem training_window_spec_witness :
    getTrainingSubset 10 3 (initKFoldCVMat 3 (List.range 10)) 2 =
      ((initKFoldCVMat 3 (List.range 10)).drop (binSize 10 3 * 2)).take
        (if 2 = 3 - 1 then lastBinSize 10 3 + (3 - 2) * binSize 10 3
         else trainingSubsetSize 10 3) ∧
    (getTrainingSubset 10 3 (initKFoldCVMat 3 (List.range 10)) 2).length =
      (if 2 = 3 - 1 then lastBinSize 10 3 + (3 - 2) * binSize 10 3
       else trainingSubsetSize 10 3) :=
  training_window_spec 10 3 (List.range 10) (by simp) (by decide) (by decide)
    2 (by decide)

/-- C2: the fold geometry computed at construction satisfies
`binSize = floor(n / k)`, `trainingSubsetSize = binSize * (k - 1)` and
`lastBinSize = n - (k - 1) * binSize`; whenever `n >= k` additionally
`binSize * (k - 1) + lastBinSize = n` and
`lastBinSize ∈ [1, n - binSize * (k - 2)]`. -/
theorem fold_geometry_spec (n k : Nat) (hk : 2 ≤ k) :
    binSize n k = n / k ∧
    trainingSubsetSize n k = binSize n k * (k - 1) ∧
    lastBinSize n k = n - (k - 1) * binSize n k ∧
    (k ≤ n →
      binSize n k * (k - 1) + lastBinSize n k = n ∧
      1 ≤ lastBinSize n k ∧
      lastBinSize n k ≤ n - binSize n k * (k - 2)) := by
  refine ⟨rfl, rfl, rfl, fun hn => ⟨?_, lastBinSize_pos n k hk hn, ?_⟩⟩
  · exact trainingSubsetSize_add_lastBinSize n k
  · have h1 : binSize n k * (k - 2) ≤ binSize n k * (k - 1) :=
      Nat.mul_le_mul_left _ (by omega)
    have h2 := trainingSubsetSize_add_lastBinSize n k
    simp only [trainingSubsetSize] at h2
    omega

/-- C2 witness: the geometry claim instantiated at `n = 10`, `k = 3`. -/
theorem fold_geometry_spec_witness :
    binSize 10 3 = 10 / 3 ∧
    trainingSubsetSize 10 3 = binSize 10 3 * (3 - 1) ∧
    lastBinSize 10 3 = 10 - (3 - 1) * binSize 10 3 ∧
    (3 ≤ 10 →
      binSize 10 3 * (3 - 1) + lastBinSize 10 3 = 10 ∧
      1 ≤ lastBinSize 10 3 ∧
      lastBinSize 10 3 ≤ 10 - binSize 10 3 * (3 - 2)) :=
  fold_geometry_spec 10 3 (by decide)

/-- C8: constructing the harness with `k < 2` fails with the
invalid-argument condition raised at construction; no harness value is
produced. -/
theorem construct_invalid_k_fails (M : Type) (k : Nat) (xs : List α)
    (ys : List β) (hk : k < 2) :
    kFoldCVConstruct M k xs ys =
      Except.error "KFoldCV: k should not be less than 2" := by
  simp [kFoldCVConstruct, hk]

/-- C8 witness: construction with `k = 1` on a one-column dataset fails. -/
theorem construct_invalid_k_fails_witness :
    kFoldCVConstruct Nat 1 [0] [0] =
      Except.error "KFoldCV: k should not be less than 2" :=
  construct_invalid_k_fails Nat 1 [0] [0] (by decide)

/-- C6 counterexample: at `n = 10`, `k = 3` (Scenario B of the spec), fold 1's
training window has 6 columns and its validation window has 3, so they sum to
9, not `n = 10`: original column 9 is used in neither window of fold 1. -/
theorem fold_coverage_counterexample :
    (getTrainingSubset 10 3 (initKFoldCVMat 3 (List.range 10)) 1).length +
      (getValidationSubset 10 3 (initKFoldCVMat 3 (List.range 10)) 1).length
      ≠ 10 := by decide

/-- C6 amended: for `k ≥ 2`, `n ≥ k` and `i < k`, the training window length
plus the validation window length equals `n` for fold 0 and the last fold
`i = k - 1`, and equals `binSize * k = n - n % k` for every intermediate fold
`0 < i < k - 1`; so the sum is `n` for every fold exactly when `k` divides
`n`, and otherwise the `n % k` remainder columns are used in neither window
of the intermediate folds. -/
theorem fold_coverage_amended (n k : Nat) (src : List α)
    (hlen : src.length = n) (hk : 2 ≤ k) (hn : k ≤ n) (i : Nat) (hi : i < k) :
    (getTrainingSubset n k (initKFoldCVMat k src) i).length +
      (getValidationSubset n k (initKFoldCVMat k src) i).length =
      (if i = 0 ∨ i = k - 1 then n else n - n % k) := by
  rw [training_window_length n k src hlen hk hn i hi,
    validation_window_length n k src hlen hk hn i hi]
  have e3 := trainingSubsetSize_add_lastBinSize n k
  have e2 : trainingSubsetSize n k = binSize n k * (k - 1) := rfl
  have e1 : binSize n k * (k - 2) + binSize n k = binSize n k * (k - 1) := by
    have hk1 : (k - 2) + 1 = k - 1 := by omega
    rw [← Nat.mul_succ, Nat.succ_eq_add_one, hk1]
  have e5 : (k - 2) * binSize n k = binSize n k * (k - 2) := Nat.mul_comm _ _
  by_cases h0 : i = 0
  · have hne : i ≠ k - 1 := by omega
    rw [if_neg hne, if_pos h0, if_pos (Or.inl h0)]
    omega
  · by_cases hlast : i = k - 1
    · rw [if_pos hlast, if_neg h0, if_pos (Or.inr hlast)]
      omega
    · rw [if_neg hlast, if_neg h0, if_neg (by simp [h0, hlast])]
      have e6 : binSize n k * k = n - n % k := binSize_mul_eq n k
      have e7 : binSize n k * (k - 1) + binSize n k = binSize n k * k := by
        have hk1 : (k - 1) + 1 = k := by omega
        rw [← Nat.mul_succ, Nat.succ_eq_add_one, hk1]
      omega

/-- C6 amended witness: instantiated at `n = 10`, `k = 3`, fold `i = 1`,
where the sum is `10 - 10 % 3 = 9`. -/
theorem fold_coverage_amended_witness :
    (getTrainingSubset 10 3 (initKFoldCVMat 3 (List.range 10)) 1).length +
      (getValidationSubset 10 3 (initKFoldCVMat 3 (List.range 10)) 1).length =
      (if 1 = 0 ∨ 1 = 3 - 1 then 10 else 10 - 10 % 3) :=
  fold_coverage_amended 10 3 (List.range 10) (by simp) (by decide) (by decide)
    1 (by decide)

/-! ### Validation windows partition the original columns (C7) -/

theorem window_take_drop_range (n f l : Nat) (rest : List Nat)
    (hfl : f + l ≤ n) :
    ((List.range n ++ rest).drop f).take l = List.range' f l := by
  apply List.ext_getElem
  · simp only [List.length_take, List.length_drop, List.length_append,
      List.length_range, List.length_range']
    omega
  · intro j h1 h2
    have hj : j < l := by simpa using h2
    have hfj : f + j < n := by omega
    simp only [List.getElem_take, List.getElem_drop]
    rw [List.getElem_append_left (by simpa using hfj)]
    simp

theorem validation_window_as_range' (n k i : Nat) (hk : 2 ≤ k) (hi : i < k) :
    getValidationSubset n k (initKFoldCVMat k (List.range n)) i =
      List.range' (validationSubsetFirstCol n k i)
        (if i = 0 then lastBinSize n k else binSize n k) := by
  have hfit := validation_window_fits n k i hk hi
  by_cases h2 : k = 2
  · rw [getValidationSubset,
      show initKFoldCVMat k (List.range n) = List.range n ++ [] from by
        simp [initKFoldCVMat, h2]]
    exact window_take_drop_range _ _ _ _ hfit
  · rw [getValidationSubset,
      show initKFoldCVMat k (List.range n) = List.range n ++
          (List.range n).take (trainingSubsetSize n k - binSize n k) from by
        simp [initKFoldCVMat, h2]]
    exact window_take_drop_range _ _ _ _ hfit

theorem mem_validation_window_iff (n k i : Nat) (hk : 2 ≤ k) (hi : i < k)
    (c : Nat) :
    (c ∈ (getValidationSubset n k (initKFoldCVMat k (List.range n)) i).map
        (stagedColToOrig n)) ↔
      (validationSubsetFirstCol n k i ≤ c ∧
        c < validationSubsetFirstCol n k i +
          (if i = 0 then lastBinSize n k else binSize n k)) := by
  rw [validation_window_as_range' n k i hk hi]
  have hfit := validation_window_fits n k i hk hi
  constructor
  · intro hmem
    rcases List.mem_map.mp hmem with ⟨x, hx, hxc⟩
    rw [List.mem_range'_1] at hx
    have hxn : x < n := by omega
    have : stagedColToOrig n x = x := by simp [stagedColToOrig, hxn]
    rw [this] at hxc
    omega
  · intro hc2
    refine List.mem_map.mpr ⟨c, List.mem_range'_1.mpr ⟨hc2.1, hc2.2⟩, ?_⟩
    have hcn : c < n := by omega
    simp [stagedColToOrig, hcn]

/-- C7: for `k ≥ 2` and `n ≥ k`, every original column index `c < n` belongs,
after mapping staged columns back to original columns, to the validation
window of exactly one fold: the `k` validation windows partition the original
columns exactly once across the full k-fold run. -/
theorem validation_partition (n k : Nat) (hk : 2 ≤ k) (hn : k ≤ n)
    (c : Nat) (hc : c < n) :
    ∃! i, i < k ∧
      c ∈ (getValidationSubset n k (initKFoldCVMat k (List.range n)) i).map
        (stagedColToOrig n) := by
  have hts := trainingSubsetSize_add_lastBinSize n k
  have hb := binSize_pos n k (by omega) hn
  have e2 : trainingSubsetSize n k = binSize n k * (k - 1) := rfl
  by_cases hbig : trainingSubsetSize n k ≤ c
  · refine ⟨0, ⟨by omega, ?_⟩, ?_⟩
    · rw [mem_validation_window_iff n k 0 hk (by omega)]
      simp [validationSubsetFirstCol]
      omega
    · rintro j ⟨hj, hmem⟩
      rw [mem_validation_window_iff n k j hk hj] at hmem
      by_contra hj0
      simp only [validationSubsetFirstCol, if_neg hj0] at hmem
      have hj1 : (j - 1) + 1 = j := by omega
      have e1j : binSize n k * (j - 1) + binSize n k = binSize n k * j := by
        rw [← Nat.mul_succ, Nat.succ_eq_add_one, hj1]
      have e2j : binSize n k * j ≤ binSize n k * (k - 1) :=
        Nat.mul_le_mul_left _ (by omega)
      omega
  · push_neg at hbig
    have hq1 : binSize n k * (c / binSize n k) + c % binSize n k = c :=
      Nat.div_add_mod c (binSize n k)
    have hq2 : c % binSize n k < binSize n k := Nat.mod_lt c (by omega)
    have hq3 : c / binSize n k < k - 1 := by
      by_contra hle
      push_neg at hle
      have := Nat.mul_le_mul_left (binSize n k) hle
      omega
    refine ⟨c / binSize n k + 1, ⟨by omega, ?_⟩, ?_⟩
    · rw [mem_validation_window_iff n k _ hk (by omega)]
      have hne : c / binSize n k + 1 ≠ 0 := Nat.succ_ne_zero _
      simp only [validationSubsetFirstCol, if_neg hne, Nat.add_sub_cancel]
      omega
    · rintro j ⟨hj, hmem⟩
      rw [mem_validation_window_iff n k j hk hj] at hmem
      have hj0 : j ≠ 0 := by
        intro h0
        simp [h0, validationSubsetFirstCol] at hmem
        omega
      simp only [validationSubsetFirstCol, if_neg hj0] at hmem
      have heq : j - 1 = c / binSize n k := by
        rcases Nat.lt_trichotomy (j - 1) (c / binSize n k) with hlt | heq | hgt
        · have h1 : (j - 1) + 1 ≤ c / binSize n k := hlt
          have h2 := Nat.mul_le_mul_left (binSize n k) h1
          rw [Nat.mul_succ] at h2
          omega
        · exact heq
        · have h1 : c / binSize n k + 1 ≤ j - 1 := hgt
          have h2 := Nat.mul_le_mul_left (binSize n k) h1
          rw [Nat.mul_succ] at h2
          omega
      have hj1 : (j - 1) + 1 = j := by omega
      rw [← hj1, heq]

/-- C7 witness: the partition claim instantiated at `n = 10`, `k = 3`,
column `c = 7` (which lies in fold 0's validation window). -/
theorem validation_partition_witness :
    ∃! i, i < 3 ∧
      7 ∈ (getValidationSubset 10 3 (initKFoldCVMat 3 (List.range 10)) i).map
        (stagedColToOrig 10) :=
  validation_partition 10 3 (by decide) (by decide) 7 (by decide)

/-! ### Fold-loop helper lemmas -/

theorem cvLoop_error_ptr (k : Nat) (train : Nat → Except ε M)
    (ev : Nat → M → Except ε ℚ) :
    ∀ m i acc ptr e, i + m ≤ k →
      (cvLoop k train ev (List.range' i m) acc ptr).1 = Except.error e →
      (cvLoop k train ev (List.range' i m) acc ptr).2 = ptr := by
  intro m
  induction m with
  | zero =>
    intro i acc ptr e hle herr
    simp [List.range'_zero, cvLoop] at herr
  | succ mm ih =>
    intro i acc ptr e hle herr
    rw [List.range'_succ] at herr ⊢
    simp only [cvLoop] at herr ⊢
    cases htr : train i with
    | error e2 => simp only [htr] at herr ⊢
    | ok model =>
      cases hev : ev i model with
      | error e2 => simp only [htr, hev] at herr ⊢
      | ok s =>
        simp only [htr, hev] at herr ⊢
        by_cases hlast : i = k - 1
        · exfalso
          have hmm : mm = 0 := by omega
          subst hmm
          simp [List.range'_zero, cvLoop] at herr
        · rw [if_neg hlast] at herr ⊢
          exact ih (i + 1) (acc ++ [s]) ptr e (by omega) herr

theorem cvLoop_ok_some (k : Nat) (train : Nat → Except ε M)
    (ev : Nat → M → Except ε ℚ) :
    ∀ m i acc ptr scores, i + m = k → 1 ≤ m →
      (cvLoop k train ev (List.range' i m) acc ptr).1 = Except.ok scores →
      ∃ mo, (cvLoop k train ev (List.range' i m) acc ptr).2 = some mo := by
  intro m
  induction m with
  | zero =>
    intro i acc ptr scores heq h1
    exact absurd h1 (by omega)
  | succ mm ih =>
    intro i acc ptr scores heq h1 hok
    rw [List.range'_succ] at hok ⊢
    simp only [cvLoop] at hok ⊢
    cases htr : train i with
    | error e => simp [htr] at hok
    | ok model =>
      cases hev : ev i model with
      | error e => simp [htr, hev] at hok
      | ok s =>
        simp only [htr, hev] at hok ⊢
        by_cases hmm : mm = 0
        · subst hmm
          rw [if_pos (by omega : i = k - 1)]
          simp only [List.range'_zero, cvLoop]
          exact ⟨model, rfl⟩
        · rw [if_neg (by omega : ¬i = k - 1)] at hok ⊢
          exact ih (i + 1) (acc ++ [s]) ptr scores (by omega) (by omega) hok

theorem cvLoop_total (k : Nat) (train : Nat → Except ε M)
    (ev : Nat → M → Except ε ℚ) (f : Nat → M) (g : Nat → M → ℚ)
    (htr : ∀ i, train i = Except.ok (f i))
    (hev : ∀ i mo, ev i mo = Except.ok (g i mo)) :
    ∀ m i acc ptr, i + m ≤ k →
      cvLoop k train ev (List.range' i m) acc ptr =
        (Except.ok (acc ++ (List.range' i m).map (fun j => g j (f j))),
          if i + m = k ∧ 1 ≤ m then some (f (k - 1)) else ptr) := by
  intro m
  induction m with
  | zero =>
    intro i acc ptr hle
    simp only [List.range'_zero, cvLoop, List.map_nil, List.append_nil]
    rw [if_neg (by omega)]
  | succ mm ih =>
    intro i acc ptr hle
    rw [List.range'_succ]
    simp only [cvLoop, htr i, hev i (f i)]
    rw [ih (i + 1) (acc ++ [g i (f i)])
      (if i = k - 1 then some (f i) else ptr) (by omega)]
    simp only [List.map_cons, List.append_assoc, List.singleton_append]
    refine congrArg₂ Prod.mk rfl ?_
    by_cases hend : i + (mm + 1) = k
    · rw [if_pos (show i + (mm + 1) = k ∧ 1 ≤ mm + 1 from ⟨hend, by omega⟩)]
      by_cases hmm : mm = 0
      · subst hmm
        rw [if_neg (by omega : ¬(i + 1 + 0 = k ∧ 1 ≤ 0)),
          if_pos (by omega : i = k - 1), show i = k - 1 by omega]
      · rw [if_pos (show i + 1 + mm = k ∧ 1 ≤ mm from ⟨by omega, by omega⟩)]
    · rw [if_neg (by omega : ¬(i + (mm + 1) = k ∧ 1 ≤ mm + 1)),
        if_neg (by omega : ¬(i + 1 + mm = k ∧ 1 ≤ mm)),
        if_neg (by omega : ¬i = k - 1)]

/-- C1: for `k ≥ 2` and `n ≥ k`, a completed `Evaluate` call with an
infallible model/metric pair returns the unweighted arithmetic mean of the
`k` per-fold metric scores — their sum divided by `k` — and the per-fold
score list has exactly `k` entries; no fold's score is weighted by its
validation-set size. -/
theorem Evaluate_mean (h : KFoldCV α β M) (train : List α → List β → M)
    (mev : M → List α → List β → ℚ) (hk : 2 ≤ h.k) (hn : h.k ≤ h.n) :
    (Evaluate h (fun a b => (Except.ok (train a b) : Except ε M))
        (fun m a b => Except.ok (mev m a b))).1 =
      Except.ok
        (((List.range h.k).map (foldScore h train mev)).sum / (h.k : ℚ)) ∧
    ((List.range h.k).map (foldScore h train mev)).length = h.k := by
  constructor
  · simp only [Evaluate, trainAndEvaluate]
    rw [List.range_eq_range']
    rw [cvLoop_total h.k _ _
      (fun i => train (getTrainingSubset h.n h.k h.xs i)
        (getTrainingSubset h.n h.k h.ys i))
      (fun i m => mev m (getValidationSubset h.n h.k h.xs i)
        (getValidationSubset h.n h.k h.ys i))
      (fun _ => rfl) (fun _ _ => rfl) h.k 0 [] h.modelPtr (by omega)]
    rw [← List.range_eq_range']
    simp only [Except.map, List.nil_append]
    rw [show (fun j => (fun i m => mev m (getValidationSubset h.n h.k h.xs i)
        (getValidationSubset h.n h.k h.ys i)) j
        ((fun i => train (getTrainingSubset h.n h.k h.xs i)
          (getTrainingSubset h.n h.k h.ys i)) j)) =
      foldScore h train mev from rfl]
  · simp

/-- C1 witness: the mean claim instantiated at `n = 10`, `k = 3` with the
model that retains its training features and the metric that scores the
validation-set size (per-fold scores 4, 3, 3; mean `10/3`). -/
theorem Evaluate_mean_witness :
    (Evaluate sampleCV (fun a b => (Except.ok (trainLen a b) : Except Unit (List Nat)))
        (fun m a b => Except.ok (mevLen m a b))).1 =
      Except.ok (((List.range sampleCV.k).map
        (foldScore sampleCV trainLen mevLen)).sum / (sampleCV.k : ℚ)) ∧
    ((List.range sampleCV.k).map
      (foldScore sampleCV trainLen mevLen)).length = sampleCV.k :=
  Evaluate_mean sampleCV trainLen mevLen (by decide) (by decide)

/-- C9: on a successfully constructed harness on which no `Evaluate` call has
completed, `Model()` fails with the not-initialized logic-error condition;
after a completed (successful) `Evaluate` run, `Model()` returns the retained
model without failing. -/
theorem Model_access_spec (k : Nat) (xs : List α) (ys : List β)
    (h : KFoldCV α β M) (hc : kFoldCVConstruct M k xs ys = Except.ok h)
    (train : List α → List β → Except ε M)
    (mev : M → List α → List β → Except ε ℚ) :
    Model h = Except.error
      "KFoldCV::Model(): attempted to access an uninitialized model" ∧
    ∀ score h2, Evaluate h train mev = (Except.ok score, h2) →
      ∃ m, Model h2 = Except.ok m := by
  have hparts : 2 ≤ h.k ∧ h.modelPtr = none := by
    by_cases hklt : k < 2
    · rw [kFoldCVConstruct, if_pos hklt] at hc
      cases hc
    · rw [kFoldCVConstruct, if_neg hklt] at hc
      injection hc with hrec
      subst hrec
      refine ⟨?_, rfl⟩
      show 2 ≤ k
      omega
  obtain ⟨hk2, hnone⟩ := hparts
  constructor
  · rw [Model, hnone]
  · intro score h2 hev
    simp only [Evaluate, trainAndEvaluate, Prod.mk.injEq] at hev
    obtain ⟨hev1, hev2⟩ := hev
    rw [List.range_eq_range'] at hev1 hev2
    cases hcv : (cvLoop h.k
        (fun i => train (getTrainingSubset h.n h.k h.xs i)
          (getTrainingSubset h.n h.k h.ys i))
        (fun i model => mev model (getValidationSubset h.n h.k h.xs i)
          (getValidationSubset h.n h.k h.ys i))
        (List.range' 0 h.k) [] h.modelPtr).1 with
    | error e =>
      rw [hcv] at hev1
      simp [Except.map] at hev1
    | ok scores =>
      obtain ⟨m, hm⟩ := cvLoop_ok_some h.k
        (fun i => train (getTrainingSubset h.n h.k h.xs i)
          (getTrainingSubset h.n h.k h.ys i))
        (fun i model => mev model (getValidationSubset h.n h.k h.xs i)
          (getValidationSubset h.n h.k h.ys i))
        h.k 0 [] h.modelPtr scores (by omega) (by omega) hcv
      rw [← hev2, Model, hm]
      exact ⟨m, rfl⟩

/-- C9 witness: on the concrete two-fold harness, `Model()` fails before any
run, and succeeds on the harness returned by a completed `Evaluate` run. -/
theorem Model_access_spec_witness :
    Model hSample = Except.error
      "KFoldCV::Model(): attempted to access an uninitialized model" ∧
    ∃ m, Model { hSample with modelPtr := some ([1] : List Nat) } =
      Except.ok m := by
  have hEval : Evaluate hSample trainS mevS =
      (Except.ok 1, { hSample with modelPtr := some [1] }) := by
    norm_num [Evaluate, trainAndEvaluate, cvLoop, hSample, trainS, mevS,
      getTrainingSubset, getValidationSubset, validationSubsetFirstCol,
      binSize, trainingSubsetSize, lastBinSize, Except.map, List.range_succ]
  exact ⟨(Model_access_spec 2 [0, 1] [0, 1] hSample rfl trainS mevS).1,
    (Model_access_spec 2 [0, 1] [0, 1] hSample rfl trainS mevS).2 1
      { hSample with modelPtr := some [1] } hEval⟩

/-- C10: if a fold's `Train` or the metric's `Evaluate` raises an error
during an `Evaluate` run, the retained-model slot of the harness is left
exactly as it was before the call, and `Model()` behaves exactly as before
the call. -/
theorem Model_preserved_on_error (h : KFoldCV α β M)
    (train : List α → List β → Except ε M)
    (mev : M → List α → List β → Except ε ℚ) (e : ε) (h2 : KFoldCV α β M)
    (hev : Evaluate h train mev = (Except.error e, h2)) :
    h2.modelPtr = h.modelPtr ∧ Model h2 = Model h := by
  simp only [Evaluate, trainAndEvaluate, Prod.mk.injEq] at hev
  obtain ⟨hev1, hev2⟩ := hev
  rw [List.range_eq_range'] at hev1 hev2
  have herr : (cvLoop h.k
      (fun i => train (getTrainingSubset h.n h.k h.xs i)
        (getTrainingSubset h.n h.k h.ys i))
      (fun i model => mev model (getValidationSubset h.n h.k h.xs i)
        (getValidationSubset h.n h.k h.ys i))
      (List.range' 0 h.k) [] h.modelPtr).1 = Except.error e := by
    cases hcv : (cvLoop h.k
        (fun i => train (getTrainingSubset h.n h.k h.xs i)
          (getTrainingSubset h.n h.k h.ys i))
        (fun i model => mev model (getValidationSubset h.n h.k h.xs i)
          (getValidationSubset h.n h.k h.ys i))
        (List.range' 0 h.k) [] h.modelPtr).1 with
    | error e2 =>
      rw [hcv] at hev1
      simp only [Except.map] at hev1
      injection hev1 with he
      rw [he]
    | ok scores =>
      rw [hcv] at hev1
      simp [Except.map] at hev1
  have hptr := cvLoop_error_ptr h.k
    (fun i => train (getTrainingSubset h.n h.k h.xs i)
      (getTrainingSubset h.n h.k h.ys i))
    (fun i model => mev model (getValidationSubset h.n h.k h.xs i)
      (getValidationSubset h.n h.k h.ys i))
    h.k 0 [] h.modelPtr e (by omega) herr
  rw [← hev2, hptr]
  have hid : { h with modelPtr := h.modelPtr } = h := by
    cases h
    rfl
  rw [hid]
  exact ⟨rfl, rfl⟩

/-- C10 witness: on the concrete two-fold harness with an always-failing
metric, the failed `Evaluate` run leaves the retained-model slot untouched
and `Model()` still fails as before. -/
theorem Model_preserved_on_error_witness :
    hSample.modelPtr = hSample.modelPtr ∧ Model hSample = Model hSample :=
  Model_preserved_on_error hSample trainS mevFail () hSample rfl

end MlpackCV
